import Mathlib

/-!
Shallow embedding of the peerdb nexus server session handler
(src/nexus/server/src/main.rs): statement dispatch, per-peer executor
cache, cursor table, and the extended-protocol adapter
(parameter substitution, describe). External collaborators (the SQL
parser, the catalog storage, the peer executors, response conversion
utilities) are abstracted into an environment of functions; panics in
the Rust source (unwrap, panic, todo) are modelled as an explicit
abort outcome distinct from a returned error.
-/

namespace Nexus

/-- Backend-specific connection settings: the tagged union
`pt::peers::peer::Config`. The code in main.rs only inspects which
variant it is (BigQuery, Postgres, or anything else), so the payloads
are abstract strings. -/
inductive PeerConfig
  | bigqueryConfig (c : String)
  | postgresConfig (c : String)
  | otherConfig (tag : String) (c : String)
deriving DecidableEq

/-- `pt::peers::Peer`: a name and an optional typed config. -/
structure Peer where
  name : String
  config : Option PeerConfig
deriving DecidableEq

/-- A parsed SQL statement (`sqlparser::ast::Statement`), abstract:
the dispatcher never inspects it, it only hands it to executors. -/
abbrev Stmt := String

/-- Identity of a query executor held by the session: either the
built-in catalog executor (`catalog.get_executor()`) or a peer
executor handle (`Arc<Box<dyn QueryExecutor>>`) identified by the
order in which it was constructed in the session. -/
inductive ExecutorHandle
  | catalogExec
  | peerExec (id : Nat)
deriving DecidableEq

/-- `pgwire::error::ErrorInfo` (severity, code, message). -/
structure ErrorInfo where
  severity : String
  code : String
  message : String
deriving DecidableEq

/-- The part of `pgwire::error::PgWireError` this code constructs or
propagates. -/
inductive PgWireErr
  | userError (info : ErrorInfo)
  | apiError (msg : String)
deriving DecidableEq

/-- `peer_cursor::CursorModification`. -/
inductive CursorModification
  | created (name : String)
  | closed (names : List String)
deriving DecidableEq

abbrev Schema := List String
abbrev Row := List String

/-- `peer_cursor::QueryOutput`: the four result shapes an executor
can return. -/
inductive QueryOutput
  | affectedRows (n : Nat)
  | stream (schema : Schema) (rows : List Row)
  | records (schema : Schema) (rows : List Row)
  | cursor (cm : CursorModification)
deriving DecidableEq

/-- `pgwire::api::results::Response`, restricted to the shapes this
code produces: an execution tag (with an optional row count), a
query response carrying rows, or the empty-query response. -/
inductive Response
  | execution (tag : String) (rows : Option Nat)
  | query (schema : Schema) (rows : List Row)
  | emptyQuery
deriving DecidableEq

/-- Observable side effects on external collaborators, recorded so
that properties such as "no statement is executed" and "no duplicate
construction" are statable. -/
inductive Event
  | construct (peerName : String)
  | exec (h : ExecutorHandle) (stmt : Stmt)
  | describeQuery (stmt : Stmt)
deriving DecidableEq

/-- The mutable session state of one `NexusBackend`:
`executors: DashMap<String, Arc<Box<dyn QueryExecutor>>>` (peer name
to executor handle), the id counter for fresh executor handles,
`peer_cursors: Mutex<PeerCursors>` (cursor name to owning peer),
the peers persisted by the catalog, and the event log. -/
structure SessionState where
  executors : List (String × Nat)
  nextExecId : Nat
  peerCursors : List (String × Peer)
  catalogPeers : List Peer
  log : List Event
deriving DecidableEq

/-- Outcome of one dispatch step: a value, a returned error
(`Err(PgWireError)`), or a Rust panic (unwrap on a failed
construction, an unsupported peer config, an unimplemented arm). -/
inductive RunResult (α : Type)
  | ok (a : α)
  | err (e : PgWireErr)
  | abortRun (msg : String)
deriving DecidableEq

/-- Statements of the analyzer: `analyzer::PeerDDL`, restricted to the
one variant main.rs handles. -/
inductive PeerDDLStmt
  | createPeer (peer : Peer) (ifNotExists : Bool)
deriving DecidableEq

/-- `analyzer::QueryAssocation` (sic): the routing decision attached
by the analyzer. -/
inductive QueryAssocation
  | peer (p : Peer)
  | catalogAssoc
deriving DecidableEq

/-- `analyzer::CursorEvent`. -/
inductive CursorEvent
  | fetch (name : String) (count : Nat)
  | closeAll
  | close (name : String)
deriving DecidableEq

/-- `peerdb_parser::NexusStatement`. -/
inductive NexusStatement
  | peerDDL (stmt : Stmt) (ddl : PeerDDLStmt)
  | peerQuery (stmt : Stmt) (assoc : QueryAssocation)
  | peerCursor (stmt : Stmt) (cursor : CursorEvent)
deriving DecidableEq

instance {ε α : Type} [DecidableEq ε] [DecidableEq α] : DecidableEq (Except ε α) :=
  fun a b =>
    match a, b with
    | .error e1, .error e2 =>
      if h : e1 = e2 then isTrue (by rw [h]) else isFalse (by simp [h])
    | .error _, .ok _ => isFalse (by simp)
    | .ok _, .error _ => isFalse (by simp)
    | .ok a1, .ok a2 =>
      if h : a1 = a2 then isTrue (by rw [h]) else isFalse (by simp [h])

/-- The external collaborators, as pure oracles: outcomes of executor
construction (`BigQueryQueryExecutor::new`,
`PostgresQueryExecutor::new`), executor calls (`execute`,
`describe`), the catalog write (`Catalog::create_peer`), the response
conversion utilities, and the SQL parser
(`NexusQueryParser::parse_simple_sql`). -/
structure Env where
  bigqueryNew : String → Except String Unit
  postgresNew : Option String → String → Except String Unit
  execRes : ExecutorHandle → Stmt → Except PgWireErr QueryOutput
  describeRes : ExecutorHandle → Stmt → Except PgWireErr (Option Schema)
  bqDescribe : String → Stmt → Except PgWireErr (Option Schema)
  createPeerRes : Peer → Except String Unit
  streamToResponse : Schema → List Row → Except PgWireErr Response
  recordsToResponse : Schema → List Row → Except PgWireErr Response
  parse : String → Except PgWireErr NexusStatement

namespace PeerCursors

/-- Modelled from the spec: the Cursor Table of `cursor::PeerCursors`
(the file `cursor.rs` is not in src); the spec says the Cursor Table
"maps a session-scoped cursor name to its owning peer" and a created
cursor registers `(name → owning peer)`. -/
def add_cursor (t : List (String × Peer)) (name : String) (p : Peer) :
    List (String × Peer) :=
  (name, p) :: t

/-- Modelled from the spec: "remove each name from the Cursor Table"
on a cursor close. -/
def remove_cursor (t : List (String × Peer)) (name : String) :
    List (String × Peer) :=
  t.filter (fun e => e.1 != name)

/-- Modelled from the spec: "Look up the owning peer of the name in
the Cursor Table". -/
def get_peer (t : List (String × Peer)) (name : String) : Option Peer :=
  (t.find? (fun e => e.1 == name)).map (fun e => e.2)

end PeerCursors

/-- Lookup in the executor cache (`self.executors.get(&peer.name)`). -/
def executorsGet (m : List (String × Nat)) (name : String) : Option Nat :=
  (m.find? (fun e => e.1 == name)).map (fun e => e.2)

/-- Insertion into the executor cache (`self.executors.insert`);
cons shadows older entries, matching overwrite semantics. -/
def executorsInsert (m : List (String × Nat)) (name : String) (id : Nat) :
    List (String × Nat) :=
  (name, id) :: m

/-- `NexusBackend::get_peer_executor` (main.rs lines 201 to 226): on a
cache hit return the stored handle; on a miss dispatch on the config
variant, run the fallible constructor and `unwrap()` its result
(a failed construction panics), insert the new handle and return it;
any other config variant hits `panic!("peer type not supported")`. -/
def get_peer_executor (env : Env) (st : SessionState) (peer : Peer) :
    SessionState × RunResult ExecutorHandle :=
  match executorsGet st.executors peer.name with
  | some id => (st, .ok (.peerExec id))
  | none =>
    match peer.config with
    | some (.bigqueryConfig c) =>
      let st1 := { st with log := st.log ++ [.construct peer.name] }
      match env.bigqueryNew c with
      | .ok _ =>
        let id := st1.nextExecId
        ({ st1 with
            executors := executorsInsert st1.executors peer.name id,
            nextExecId := id + 1 },
         .ok (.peerExec id))
      | .error _ => (st1, .abortRun "called Result::unwrap on an Err value")
    | some (.postgresConfig c) =>
      let st1 := { st with log := st.log ++ [.construct peer.name] }
      match env.postgresNew (some peer.name) c with
      | .ok _ =>
        let id := st1.nextExecId
        ({ st1 with
            executors := executorsInsert st1.executors peer.name id,
            nextExecId := id + 1 },
         .ok (.peerExec id))
      | .error _ => (st1, .abortRun "called Result::unwrap on an Err value")
    | _ => (st, .abortRun "peer type not supported")

/-- `NexusBackend::execute_statement` (main.rs lines 81 to 126): run
the statement on the executor, propagate its error, and translate the
`QueryOutput`; a created cursor registers the unwrapped `peer_holder`
(a `None` holder panics), a close removes each returned name. -/
def execute_statement (env : Env) (st : SessionState)
    (executor : ExecutorHandle) (stmt : Stmt) (peer_holder : Option Peer) :
    SessionState × RunResult (List Response) :=
  let st := { st with log := st.log ++ [.exec executor stmt] }
  match env.execRes executor stmt with
  | .error e => (st, .err e)
  | .ok out =>
    match out with
    | .affectedRows rows => (st, .ok [.execution "OK" (some rows)])
    | .stream schema rows =>
      match env.streamToResponse schema rows with
      | .ok r => (st, .ok [r])
      | .error e => (st, .err e)
    | .records schema recs =>
      match env.recordsToResponse schema recs with
      | .ok r => (st, .ok [r])
      | .error e => (st, .err e)
    | .cursor (.created cursor_name) =>
      match peer_holder with
      | some p =>
        ({ st with
            peerCursors := PeerCursors.add_cursor st.peerCursors cursor_name p },
         .ok [.execution "DECLARE CURSOR" none])
      | none => (st, .abortRun "called Option::unwrap on a None value")
    | .cursor (.closed cursors) =>
      ({ st with
          peerCursors := cursors.foldl PeerCursors.remove_cursor st.peerCursors },
       .ok [.execution "CLOSE CURSOR" none])

/-- `NexusBackend::handle_query` (main.rs lines 128 to 199):
dispatch on the statement kind. `CreatePeer` writes through the
catalog, mapping a failure to a user error with the underlying cause.
A peer query resolves its association (peer via the cache, catalog
directly), setting `peer_holder` only on the peer path. A cursor
statement looks the cursor name up in the Cursor Table and falls back
to the catalog executor when absent; `CloseAll` is `todo!()`. -/
def handle_query (env : Env) (st : SessionState) (nexus_stmt : NexusStatement) :
    SessionState × RunResult (List Response) :=
  match nexus_stmt with
  | .peerDDL _stmt ddl =>
    match ddl with
    | .createPeer peer _ifNotExists =>
      match env.createPeerRes peer with
      | .ok _ =>
        ({ st with catalogPeers := st.catalogPeers ++ [peer] },
         .ok [.execution "OK" none])
      | .error e =>
        (st, .err (.userError ⟨"ERROR", "internal_error", e⟩))
  | .peerQuery stmt assoc =>
    match assoc with
    | .peer peer =>
      match get_peer_executor env st peer with
      | (st1, .ok ex) => execute_statement env st1 ex stmt (some peer)
      | (st1, .err e) => (st1, .err e)
      | (st1, .abortRun m) => (st1, .abortRun m)
    | .catalogAssoc => execute_statement env st .catalogExec stmt none
  | .peerCursor stmt cursor =>
    match cursor with
    | .closeAll => (st, .abortRun "not yet implemented: close all cursors")
    | .fetch c _n =>
      match PeerCursors.get_peer st.peerCursors c with
      | none => execute_statement env st .catalogExec stmt none
      | some peer =>
        match get_peer_executor env st peer with
        | (st1, .ok ex) => execute_statement env st1 ex stmt none
        | (st1, .err e) => (st1, .err e)
        | (st1, .abortRun m) => (st1, .abortRun m)
    | .close c =>
      match PeerCursors.get_peer st.peerCursors c with
      | none => execute_statement env st .catalogExec stmt none
      | some peer =>
        match get_peer_executor env st peer with
        | (st1, .ok ex) => execute_statement env st1 ex stmt none
        | (st1, .err e) => (st1, .err e)
        | (st1, .abortRun m) => (st1, .abortRun m)

/-- `SimpleQueryHandler::do_query` (main.rs lines 230 to 238): parse
the SQL text, then dispatch the resulting statement. -/
def do_query_simple (env : Env) (st : SessionState) (sql : String) :
    SessionState × RunResult (List Response) :=
  match env.parse sql with
  | .error e => (st, .err e)
  | .ok nstmt => handle_query env st nstmt

/-- The pgwire parameter types `parameter_to_string` dispatches on. -/
inductive PgType
  | varchar
  | text
  | boolT
  | int4
  | int8
  | float4
  | float8
  | other (oid : Nat)
deriving DecidableEq

/-- A bound parameter value as the portal decodes it. Floating-point
values are carried as their decimal rendering (the string Rust
Display would produce), since the dispatcher only ever turns them
into text. -/
inductive ParamValue
  | nullVal
  | textVal (s : String)
  | boolVal (b : Bool)
  | int4Val (n : Int)
  | int8Val (n : Int)
  | float4Val (render : String)
  | float8Val (render : String)
deriving DecidableEq

/-- `pgwire::api::portal::Portal` as the adapter uses it: the raw
query text of the prepared statement, the declared parameter types,
and the bound parameter values. -/
structure Portal where
  query : String
  paramTypes : List PgType
  params : List ParamValue
deriving DecidableEq

/-- The fixed "unsupported parameter value" user error of
`parameter_to_string`. -/
def unsupportedParamErr : PgWireErr :=
  .userError ⟨"ERROR", "22023", "unsupported_parameter_value"⟩

/-- A wire-decode failure of `portal.parameter::<T>(idx)` when the
stored value does not decode at the declared type. -/
def decodeErr : PgWireErr := .apiError "invalid parameter bytes"

/-- `parameter_to_string` (main.rs lines 241 to 276): look the
declared type up (the index unwrap panics when out of range), decode
the value at that type, and render it: text-like types are wrapped in
single quotes (a NULL renders as the empty string inside quotes),
bool and the integer and float types render as plain literal text
(a NULL renders as the empty string), any other declared type is the
fixed unsupported-parameter error. -/
def parameter_to_string (portal : Portal) (idx : Nat) : RunResult String :=
  match portal.paramTypes.get? idx with
  | none => .abortRun "called Option::unwrap on a None value"
  | some t =>
    match portal.params.get? idx with
    | none => .abortRun "parameter index out of range"
    | some v =>
      match t with
      | .varchar | .text =>
        match v with
        | .nullVal => .ok ("'" ++ "" ++ "'")
        | .textVal s => .ok ("'" ++ s ++ "'")
        | _ => .err decodeErr
      | .boolT =>
        match v with
        | .nullVal => .ok ""
        | .boolVal b => .ok (toString b)
        | _ => .err decodeErr
      | .int4 =>
        match v with
        | .nullVal => .ok ""
        | .int4Val n => .ok (toString n)
        | _ => .err decodeErr
      | .int8 =>
        match v with
        | .nullVal => .ok ""
        | .int8Val n => .ok (toString n)
        | _ => .err decodeErr
      | .float4 =>
        match v with
        | .nullVal => .ok ""
        | .float4Val s => .ok s
        | _ => .err decodeErr
      | .float8 =>
        match v with
        | .nullVal => .ok ""
        | .float8Val s => .ok s
        | _ => .err decodeErr
      | .other _ => .err unsupportedParamErr

/-- One pass of Rust `str::replace` over character lists: replace
every leftmost non-overlapping occurrence of `pat` by `rep`. Fuel is
the length of the subject so the recursion is structural; each step
consumes at least one character, so the fuel never runs out. Faithful
to Rust for the non-empty patterns this code builds. -/
def replaceFuel (pat rep : List Char) : Nat → List Char → List Char
  | 0, s => s
  | _ + 1, [] => []
  | fuel + 1, c :: rest =>
    if pat.isPrefixOf (c :: rest) && !pat.isEmpty
    then rep ++ replaceFuel pat rep fuel ((c :: rest).drop pat.length)
    else c :: replaceFuel pat rep fuel rest

/-- Rust `str::replace` on strings. -/
def rustReplace (s pat rep : String) : String :=
  ⟨replaceFuel pat.data rep.data s.data.length s.data⟩

/-- The substitution loop of the extended-flow `do_query` (main.rs
lines 305 to 308): for `i` in `0..portal.parameter_len()`, render
parameter `i` and replace every occurrence of `$(i+1)` in the
statement text, stopping at the first rendering failure. `fuel`
counts the remaining iterations, so the loop is entered with
`i = 0` and `fuel = portal.params.length`. -/
def substitute_params (portal : Portal) : Nat → Nat → String → RunResult String
  | _, 0, sql => .ok sql
  | i, fuel + 1, sql =>
    match parameter_to_string portal i with
    | .ok s =>
      substitute_params portal (i + 1) fuel
        (rustReplace sql ("$" ++ toString (i + 1)) s)
    | .err e => .err e
    | .abortRun m => .abortRun m

/-- `ExtendedQueryHandler::do_query` (main.rs lines 292 to 318):
substitute the bound parameters into the statement text, parse the
result as simple SQL, dispatch it through `handle_query`, and return
the first response (or the empty-query response when there is none). -/
def eqp_do_query (env : Env) (st : SessionState) (portal : Portal) :
    SessionState × RunResult Response :=
  match substitute_params portal 0 portal.params.length portal.query with
  | .err e => (st, .err e)
  | .abortRun m => (st, .abortRun m)
  | .ok sql =>
    match env.parse sql with
    | .error e => (st, .err e)
    | .ok nstmt =>
      match handle_query env st nstmt with
      | (st1, .err e) => (st1, .err e)
      | (st1, .abortRun m) => (st1, .abortRun m)
      | (st1, .ok result) =>
        match result with
        | [] => (st1, .ok .emptyQuery)
        | r :: _ => (st1, .ok r)

/-- The adapter step that turns the simple-flow response list into
the single extended-flow response (main.rs lines 313 to 317). -/
def firstResponse :
    SessionState × RunResult (List Response) → SessionState × RunResult Response
  | (st, .ok []) => (st, .ok .emptyQuery)
  | (st, .ok (r :: _)) => (st, .ok r)
  | (st, .err e) => (st, .err e)
  | (st, .abortRun m) => (st, .abortRun m)

/-- `pgwire::api::results::DescribeResponse`, restricted to what this
code builds (`DescribeResponse::no_data()`). -/
inductive DescribeResponse
  | noData
  | described (paramTypes : Option (List PgType)) (fields : List String)
deriving DecidableEq

/-- `ExtendedQueryHandler::do_describe` (main.rs lines 320 to 380) on
the parsed statement of the target: DDL and cursor statements answer
no-data immediately; a peer query with a BigQuery peer constructs a
fresh executor (a construction failure maps to a user error here, not
a panic) and describes through it, any other peer config panics; a
catalog query describes through the catalog executor; either way the
result schema is dropped and no-data is answered. -/
def do_describe (env : Env) (st : SessionState) (nstmt : NexusStatement) :
    SessionState × RunResult DescribeResponse :=
  match nstmt with
  | .peerDDL _ _ => (st, .ok .noData)
  | .peerCursor _ _ => (st, .ok .noData)
  | .peerQuery stmt assoc =>
    match assoc with
    | .peer peer =>
      match peer.config with
      | some (.bigqueryConfig c) =>
        let st1 := { st with log := st.log ++ [.construct peer.name] }
        match env.bigqueryNew c with
        | .error e =>
          (st1, .err (.userError ⟨"ERROR", "internal_error", e⟩))
        | .ok _ =>
          let st2 := { st1 with log := st1.log ++ [.describeQuery stmt] }
          match env.bqDescribe c stmt with
          | .error e => (st2, .err e)
          | .ok _schema => (st2, .ok .noData)
      | _ => (st, .abortRun "peer type not supported")
    | .catalogAssoc =>
      let st1 := { st with log := st.log ++ [.describeQuery stmt] }
      match env.describeRes .catalogExec stmt with
      | .error e => (st1, .err e)
      | .ok _schema => (st1, .ok .noData)

/-! ### Concrete fixtures for witnesses and counterexamples -/

/-- The empty session state a fresh `NexusBackend::new` starts with. -/
def st0 : SessionState :=
  { executors := [], nextExecId := 0, peerCursors := [], catalogPeers := [], log := [] }

/-- A benign environment: constructions succeed, every execution
reports one affected row, parsing classifies the text as a catalog
query. Variants override single fields. -/
def env0 : Env where
  bigqueryNew := fun _ => .ok ()
  postgresNew := fun _ _ => .ok ()
  execRes := fun _ _ => .ok (.affectedRows 1)
  describeRes := fun _ _ => .ok none
  bqDescribe := fun _ _ => .ok none
  createPeerRes := fun _ => .ok ()
  streamToResponse := fun schema rows => .ok (.query schema rows)
  recordsToResponse := fun _ rows => .ok (.query [] rows)
  parse := fun s => .ok (.peerQuery s .catalogAssoc)

/-- A BigQuery peer. -/
def peerBq : Peer := { name := "bq_peer", config := some (.bigqueryConfig "cfg") }

/-- A peer with an absent config, the `_` arm of the dispatch. -/
def peerNoConfig : Peer := { name := "p_nil", config := none }

/-! ### Shared helper lemmas -/

/-- A fresh insertion is found by the cache lookup. -/
theorem executorsGet_insert_self (m : List (String × Nat)) (name : String) (id : Nat) :
    executorsGet (executorsInsert m name id) name = some id := by
  simp [executorsGet, executorsInsert, List.find?_cons_of_pos]

/-- A successful `get_peer_executor` leaves the handle it returned in
the cache under the name of the peer. -/
theorem get_peer_executor_cached {env : Env} {st : SessionState} {peer : Peer}
    {st1 : SessionState} {ex : ExecutorHandle}
    (h : get_peer_executor env st peer = (st1, .ok ex)) :
    ∃ id, ex = .peerExec id ∧ executorsGet st1.executors peer.name = some id := by
  unfold get_peer_executor at h
  split at h
  case h_1 id hget =>
    rw [Prod.mk.injEq] at h
    obtain ⟨h1, h2⟩ := h
    subst h1
    exact ⟨id, by simpa using h2.symm, hget⟩
  case h_2 hget =>
    split at h
    · split at h
      · rw [Prod.mk.injEq] at h
        obtain ⟨h1, h2⟩ := h
        subst h1
        exact ⟨st.nextExecId, by simpa using h2.symm, executorsGet_insert_self ..⟩
      · simp at h
    · split at h
      · rw [Prod.mk.injEq] at h
        obtain ⟨h1, h2⟩ := h
        subst h1
        exact ⟨st.nextExecId, by simpa using h2.symm, executorsGet_insert_self ..⟩
      · simp at h
    · simp at h

/-- A cache hit: when the name is already cached, resolution returns
the stored handle and changes nothing. -/
theorem get_peer_executor_hit {st : SessionState} {peer : Peer} {id : Nat}
    (env : Env) (hget : executorsGet st.executors peer.name = some id) :
    get_peer_executor env st peer = (st, .ok (.peerExec id)) := by
  unfold get_peer_executor
  rw [hget]

/-- Whatever `get_peer_executor` does, the cursor table is untouched
and the cache either is unchanged or gains exactly one entry for a
previously uncached peer name. -/
theorem get_peer_executor_frame {env : Env} {st : SessionState} {peer : Peer}
    {st1 : SessionState} {r : RunResult ExecutorHandle}
    (h : get_peer_executor env st peer = (st1, r)) :
    st1.peerCursors = st.peerCursors ∧
      (st1.executors = st.executors ∨
        ∃ id, st1.executors = (peer.name, id) :: st.executors ∧
          executorsGet st.executors peer.name = none) := by
  unfold get_peer_executor at h
  split at h
  case h_1 id hget =>
    rw [Prod.mk.injEq] at h
    obtain ⟨h1, _⟩ := h
    subst h1
    exact ⟨rfl, Or.inl rfl⟩
  case h_2 hget =>
    split at h
    · split at h <;>
        (rw [Prod.mk.injEq] at h; obtain ⟨h1, _⟩ := h; subst h1)
      · exact ⟨rfl, Or.inr ⟨st.nextExecId, rfl, hget⟩⟩
      · exact ⟨rfl, Or.inl rfl⟩
    · split at h <;>
        (rw [Prod.mk.injEq] at h; obtain ⟨h1, _⟩ := h; subst h1)
      · exact ⟨rfl, Or.inr ⟨st.nextExecId, rfl, hget⟩⟩
      · exact ⟨rfl, Or.inl rfl⟩
    · rw [Prod.mk.injEq] at h
      obtain ⟨h1, _⟩ := h
      subst h1
      exact ⟨rfl, Or.inl rfl⟩

/-- When a statement execution step returns an error, the cursor
table and the executor cache are exactly as before the step. -/
theorem execute_statement_err_frame {env : Env} {st : SessionState}
    {ex : ExecutorHandle} {stmt : Stmt} {ph : Option Peer}
    {st1 : SessionState} {e : PgWireErr}
    (h : execute_statement env st ex stmt ph = (st1, .err e)) :
    st1.peerCursors = st.peerCursors ∧ st1.executors = st.executors := by
  unfold execute_statement at h
  split at h
  · rw [Prod.mk.injEq] at h
    obtain ⟨h1, _⟩ := h
    subst h1
    exact ⟨rfl, rfl⟩
  · split at h
    · simp at h
    · split at h
      · simp at h
      · rw [Prod.mk.injEq] at h
        obtain ⟨h1, _⟩ := h
        subst h1
        exact ⟨rfl, rfl⟩
    · split at h
      · simp at h
      · rw [Prod.mk.injEq] at h
        obtain ⟨h1, _⟩ := h
        subst h1
        exact ⟨rfl, rfl⟩
    · split at h
      · simp at h
      · simp at h
    · simp at h

/-! ### Claim theorems -/

/-- C1: For all peer names p, resolving the executor for p twice
within one session yields the identical shared executor handle, with
no duplicate construction: the second resolution is a cache hit
(state unchanged, hence no construction event) returning the handle
stored by the first under the name of the peer. -/
theorem c1_second_resolution_is_cache_hit (env : Env) (st st1 : SessionState)
    (peer : Peer) (ex : ExecutorHandle)
    (h : get_peer_executor env st peer = (st1, .ok ex)) :
    get_peer_executor env st1 peer = (st1, .ok ex) ∧
      ∃ id, ex = .peerExec id ∧ executorsGet st1.executors peer.name = some id := by
  obtain ⟨id, hex, hget⟩ := get_peer_executor_cached h
  subst hex
  exact ⟨get_peer_executor_hit env hget, id, rfl, hget⟩

/-- The session state after the first successful resolution of
`peerBq` from the empty state. -/
def stW1 : SessionState :=
  { st0 with executors := [("bq_peer", 0)], nextExecId := 1,
             log := [.construct "bq_peer"] }

theorem c1_witness :
    get_peer_executor env0 st0 peerBq = (stW1, .ok (.peerExec 0)) ∧
    (get_peer_executor env0 stW1 peerBq = (stW1, .ok (.peerExec 0)) ∧
      ∃ id, ExecutorHandle.peerExec 0 = .peerExec id ∧
        executorsGet stW1.executors peerBq.name = some id) :=
  ⟨by decide, c1_second_resolution_is_cache_hit env0 st0 stW1 peerBq (.peerExec 0) (by decide)⟩

/-- A generic execution failure. -/
def errBoom : PgWireErr := .userError ⟨"ERROR", "XX000", "boom"⟩

/-- An environment in which every executor call fails. -/
def envExecFails : Env := { env0 with execRes := fun _ _ => .error errBoom }

/-- C2 counterexample: a peer query against an uncached peer
constructs and memoizes the executor and then fails in execution; the
statement returns an error, yet the Executor Cache is not in its
pre-dispatch state: it has gained the memoized executor. -/
theorem c2_counterexample :
    (handle_query envExecFails st0 (.peerQuery "q" (.peer peerBq))).2 = .err errBoom ∧
    (handle_query envExecFails st0 (.peerQuery "q" (.peer peerBq))).1.executors ≠
      st0.executors := by
  decide

/-- Frame fact for an executor resolution followed by an execution
that returns an error: the cursor table is untouched and the cache
gained at most the one memoized executor. -/
theorem peer_branch_err_frame {env : Env} {st stA st1 : SessionState} {p : Peer}
    {ex : ExecutorHandle} {s : Stmt} {ph : Option Peer} {e : PgWireErr}
    (hG : get_peer_executor env st p = (stA, .ok ex))
    (h : execute_statement env stA ex s ph = (st1, .err e)) :
    st1.peerCursors = st.peerCursors ∧
      (st1.executors = st.executors ∨
        ∃ nm id, st1.executors = (nm, id) :: st.executors ∧
          executorsGet st.executors nm = none) := by
  obtain ⟨hc1, hx1⟩ := get_peer_executor_frame hG
  obtain ⟨hc2, hx2⟩ := execute_statement_err_frame h
  refine ⟨hc2.trans hc1, ?_⟩
  rcases hx1 with hx1 | ⟨id, hins, hnone⟩
  · exact Or.inl (hx2.trans hx1)
  · exact Or.inr ⟨p.name, id, hx2.trans hins, hnone⟩

/-- Frame fact for an executor resolution alone, in the weaker shape
used by the error-frame theorem. -/
theorem gpe_any_frame {env : Env} {st stA : SessionState} {p : Peer}
    {r : RunResult ExecutorHandle}
    (hG : get_peer_executor env st p = (stA, r)) :
    stA.peerCursors = st.peerCursors ∧
      (stA.executors = st.executors ∨
        ∃ nm id, stA.executors = (nm, id) :: st.executors ∧
          executorsGet st.executors nm = none) := by
  obtain ⟨hc, hx⟩ := get_peer_executor_frame hG
  refine ⟨hc, ?_⟩
  rcases hx with hx | ⟨id, hins, hnone⟩
  · exact Or.inl hx
  · exact Or.inr ⟨p.name, id, hins, hnone⟩

/-- C2 (amended): for every statement whose execution returns an
error, the Cursor Table is unchanged, and the Executor Cache is
unchanged except that it may have gained exactly one entry: an
executor successfully constructed for a previously uncached peer name
while resolving the target of the failing statement. -/
theorem c2_error_frame (env : Env) (st : SessionState) (nstmt : NexusStatement)
    (st1 : SessionState) (e : PgWireErr)
    (h : handle_query env st nstmt = (st1, .err e)) :
    st1.peerCursors = st.peerCursors ∧
      (st1.executors = st.executors ∨
        ∃ nm id, st1.executors = (nm, id) :: st.executors ∧
          executorsGet st.executors nm = none) := by
  cases nstmt with
  | peerDDL s ddl =>
    cases ddl with
    | createPeer p ifne =>
      simp only [handle_query] at h
      split at h
      · simp at h
      · simp only [Prod.mk.injEq] at h
        obtain ⟨h1, _⟩ := h
        subst h1
        exact ⟨rfl, Or.inl rfl⟩
  | peerQuery s assoc =>
    cases assoc with
    | peer p =>
      simp only [handle_query] at h
      split at h
      next stA ex hG => exact peer_branch_err_frame hG h
      next stA e2 hG =>
        simp only [Prod.mk.injEq] at h
        obtain ⟨h1, _⟩ := h
        subst h1
        exact gpe_any_frame hG
      next stA m hG => simp at h
    | catalogAssoc =>
      simp only [handle_query] at h
      obtain ⟨hc, hx⟩ := execute_statement_err_frame h
      exact ⟨hc, Or.inl hx⟩
  | peerCursor s ce =>
    cases ce with
    | closeAll =>
      simp only [handle_query] at h
      simp at h
    | fetch c n =>
      simp only [handle_query] at h
      split at h
      · obtain ⟨hc, hx⟩ := execute_statement_err_frame h
        exact ⟨hc, Or.inl hx⟩
      next p hP =>
        split at h
        next stA ex hG => exact peer_branch_err_frame hG h
        next stA e2 hG =>
          simp only [Prod.mk.injEq] at h
          obtain ⟨h1, _⟩ := h
          subst h1
          exact gpe_any_frame hG
        next stA m hG => simp at h
    | close c =>
      simp only [handle_query] at h
      split at h
      · obtain ⟨hc, hx⟩ := execute_statement_err_frame h
        exact ⟨hc, Or.inl hx⟩
      next p hP =>
        split at h
        next stA ex hG => exact peer_branch_err_frame hG h
        next stA e2 hG =>
          simp only [Prod.mk.injEq] at h
          obtain ⟨h1, _⟩ := h
          subst h1
          exact gpe_any_frame hG
        next stA m hG => simp at h

/-- An environment in which the catalog write fails. -/
def envCreateFails : Env := { env0 with createPeerRes := fun _ => .error "boom" }

theorem c2_witness :
    handle_query envCreateFails st0 (.peerDDL "CREATE PEER" (.createPeer peerBq false)) =
      (st0, .err (.userError ⟨"ERROR", "internal_error", "boom"⟩)) ∧
    (st0.peerCursors = st0.peerCursors ∧
      (st0.executors = st0.executors ∨
        ∃ nm id, st0.executors = (nm, id) :: st0.executors ∧
          executorsGet st0.executors nm = none)) :=
  ⟨by decide,
   c2_error_frame envCreateFails st0
     (.peerDDL "CREATE PEER" (.createPeer peerBq false)) st0
     (.userError ⟨"ERROR", "internal_error", "boom"⟩) (by decide)⟩

/-- C3 (code behavior at the failing input): resolving an executor
for a peer whose config is absent (or any variant other than BigQuery
or Postgres) panics, both on the dispatch path and on the describe
path, instead of returning a typed recoverable error. -/
theorem c3_unsupported_config_aborts :
    (handle_query env0 st0 (.peerQuery "SELECT 1" (.peer peerNoConfig))).2 =
      .abortRun "peer type not supported" ∧
    (do_describe env0 st0 (.peerQuery "SELECT 1" (.peer peerNoConfig))).2 =
      .abortRun "peer type not supported" := by
  decide

/-- An environment in which BigQuery executor construction fails. -/
def envBqNewFails : Env :=
  { env0 with bigqueryNew := fun _ => .error "connection refused" }

/-- C4 (code behavior at the failing input): when executor
construction fails, `get_peer_executor` unwraps the failure and
panics instead of surfacing an error to the client; nothing is
memoized for the peer name (the second conjunct). -/
theorem c4_failed_construction_panics :
    (handle_query envBqNewFails st0 (.peerQuery "SELECT 1" (.peer peerBq))).2 =
      .abortRun "called Result::unwrap on an Err value" ∧
    executorsGet
      (handle_query envBqNewFails st0 (.peerQuery "SELECT 1" (.peer peerBq))).1.executors
      peerBq.name = none := by
  decide

/-- The portal binding integer 42 at the single placeholder of
`SELECT * FROM t WHERE id = $1`, declared as INT4. -/
def portal42 : Portal :=
  { query := "SELECT * FROM t WHERE id = $1",
    paramTypes := [.int4],
    params := [.int4Val 42] }

/-- A single-parameter portal, for the literal-rendering facts. -/
def portal1 (t : PgType) (v : ParamValue) : Portal :=
  { query := "", paramTypes := [t], params := [v] }

/-- C5: Extended-flow execute renders each bound parameter as a SQL
literal by declared type (quoted for text-like types, plain literal
text for boolean, integer and floating types, the fixed
unsupported-parameter error otherwise), substitutes all placeholders
into the statement text, and dispatches through the simple flow: the
extended-flow execute of `SELECT * FROM t WHERE id = $1` bound to
integer 42 is exactly the simple flow on
`SELECT * FROM t WHERE id = 42`, down to taking the first response. -/
theorem c5_extended_matches_simple (env : Env) (st : SessionState) :
    substitute_params portal42 0 portal42.params.length portal42.query =
      .ok "SELECT * FROM t WHERE id = 42" ∧
    eqp_do_query env st portal42 =
      firstResponse (do_query_simple env st "SELECT * FROM t WHERE id = 42") ∧
    (∀ s : String, parameter_to_string (portal1 .text (.textVal s)) 0 =
      .ok ("'" ++ s ++ "'")) ∧
    (∀ s : String, parameter_to_string (portal1 .varchar (.textVal s)) 0 =
      .ok ("'" ++ s ++ "'")) ∧
    (∀ b : Bool, parameter_to_string (portal1 .boolT (.boolVal b)) 0 =
      .ok (toString b)) ∧
    (∀ n : Int, parameter_to_string (portal1 .int4 (.int4Val n)) 0 =
      .ok (toString n)) ∧
    (∀ n : Int, parameter_to_string (portal1 .int8 (.int8Val n)) 0 =
      .ok (toString n)) ∧
    (∀ s : String, parameter_to_string (portal1 .float8 (.float8Val s)) 0 = .ok s) ∧
    (∀ oid : Nat, ∀ v : ParamValue,
      parameter_to_string (portal1 (.other oid) v) 0 = .err unsupportedParamErr) := by
  have hsub : substitute_params portal42 0 portal42.params.length portal42.query =
      .ok "SELECT * FROM t WHERE id = 42" := by decide
  refine ⟨hsub, ?_, fun s => rfl, fun s => rfl, fun b => rfl, fun n => rfl,
    fun n => rfl, fun s => rfl, fun oid v => rfl⟩
  unfold eqp_do_query
  rw [hsub]
  unfold do_query_simple
  dsimp only
  cases hp : env.parse "SELECT * FROM t WHERE id = 42" with
  | error e => rfl
  | ok nstmt =>
    dsimp only
    rcases hh : handle_query env st nstmt with ⟨st1, r⟩
    cases r with
    | ok rs => cases rs <;> rfl
    | err e => rfl
    | abortRun m => rfl

/-- The session state right after a successful cursor declaration:
the execution is logged and the cursor is registered to its owning
peer. -/
def postDeclare (stA : SessionState) (ex : ExecutorHandle) (ds : Stmt)
    (cname : String) (P : Peer) : SessionState :=
  { stA with log := stA.log ++ [.exec ex ds],
             peerCursors := PeerCursors.add_cursor stA.peerCursors cname P }

/-- C6: after a cursor-declaring statement against peer P succeeds
(the executor answered Created, registering the name in the Cursor
Table with P as owner and acknowledging the declaration), a fetch on
that cursor name dispatches on the very executor handle resolved for
P, although the fetch statement itself carries no peer association. -/
theorem c6_declare_then_fetch_uses_peer_executor (env : Env) (st stA : SessionState)
    (P : Peer) (ds fs : Stmt) (cname : String) (k : Nat) (ex : ExecutorHandle)
    (hres : get_peer_executor env st P = (stA, .ok ex))
    (hexec : env.execRes ex ds = .ok (.cursor (.created cname))) :
    ∃ st2,
      handle_query env st (.peerQuery ds (.peer P)) =
        (st2, .ok [.execution "DECLARE CURSOR" none]) ∧
      PeerCursors.get_peer st2.peerCursors cname = some P ∧
      handle_query env st2 (.peerCursor fs (.fetch cname k)) =
        execute_statement env st2 ex fs none := by
  obtain ⟨id, hex, hcache⟩ := get_peer_executor_cached hres
  refine ⟨postDeclare stA ex ds cname P, ?_, ?_, ?_⟩
  · simp only [handle_query, hres]
    unfold execute_statement
    rw [hexec]
    simp [postDeclare]
  · simp [postDeclare, PeerCursors.get_peer, PeerCursors.add_cursor,
      List.find?_cons_of_pos]
  · have hcur : PeerCursors.get_peer (postDeclare stA ex ds cname P).peerCursors
        cname = some P := by
      simp [postDeclare, PeerCursors.get_peer, PeerCursors.add_cursor,
        List.find?_cons_of_pos]
    simp only [handle_query, hcur]
    subst hex
    have hhit : get_peer_executor env (postDeclare stA (.peerExec id) ds cname P) P =
        (postDeclare stA (.peerExec id) ds cname P, .ok (.peerExec id)) :=
      get_peer_executor_hit env hcache
    rw [hhit]

/-- An environment whose executors create cursor `c0` on the
statement `DECL` and otherwise report an affected row. -/
def envW6 : Env :=
  { env0 with execRes := fun _ s =>
      if s = "DECL" then .ok (.cursor (.created "c0")) else .ok (.affectedRows 1) }

theorem c6_witness :
    get_peer_executor envW6 st0 peerBq = (stW1, .ok (.peerExec 0)) ∧
    envW6.execRes (.peerExec 0) "DECL" = .ok (.cursor (.created "c0")) ∧
    (∃ st2,
      handle_query envW6 st0 (.peerQuery "DECL" (.peer peerBq)) =
        (st2, .ok [.execution "DECLARE CURSOR" none]) ∧
      PeerCursors.get_peer st2.peerCursors "c0" = some peerBq ∧
      handle_query envW6 st2 (.peerCursor "FETCH" (.fetch "c0" 5)) =
        execute_statement envW6 st2 (.peerExec 0) "FETCH" none) :=
  ⟨by decide, by decide,
   c6_declare_then_fetch_uses_peer_executor envW6 st0 stW1 peerBq "DECL" "FETCH"
     "c0" 5 (.peerExec 0) (by decide) (by decide)⟩

/-- Removing a name from the cursor table makes a lookup of that
name miss. -/
theorem get_peer_remove_self (t : List (String × Peer)) (n : String) :
    PeerCursors.get_peer (PeerCursors.remove_cursor t n) n = none := by
  unfold PeerCursors.get_peer PeerCursors.remove_cursor
  induction t with
  | nil => rfl
  | cons a t ih =>
    by_cases h : a.1 = n
    · simp [List.filter_cons, h]
    · simp [List.filter_cons, h, List.find?_cons]

/-- The session state right after a successful cursor close: the
execution is logged and the name is removed from the cursor table. -/
def postClose (st : SessionState) (ex : ExecutorHandle) (cs : Stmt)
    (cname : String) : SessionState :=
  { st with log := st.log ++ [.exec ex cs],
            peerCursors := PeerCursors.remove_cursor st.peerCursors cname }

/-- C7: closing a cursor (its owning peer answering Closed for the
name) removes the name from the Cursor Table, and a subsequent fetch
on that same name, now absent from the table, falls back to the
built-in catalog executor. -/
theorem c7_close_then_fetch_falls_back (env : Env) (st : SessionState)
    (P : Peer) (cs fs : Stmt) (cname : String) (k : Nat) (id : Nat)
    (hpeer : PeerCursors.get_peer st.peerCursors cname = some P)
    (hcached : executorsGet st.executors P.name = some id)
    (hexec : env.execRes (.peerExec id) cs = .ok (.cursor (.closed [cname]))) :
    handle_query env st (.peerCursor cs (.close cname)) =
      (postClose st (.peerExec id) cs cname, .ok [.execution "CLOSE CURSOR" none]) ∧
    PeerCursors.get_peer (postClose st (.peerExec id) cs cname).peerCursors cname =
      none ∧
    handle_query env (postClose st (.peerExec id) cs cname)
        (.peerCursor fs (.fetch cname k)) =
      execute_statement env (postClose st (.peerExec id) cs cname)
        .catalogExec fs none := by
  have hhit := get_peer_executor_hit env hcached
  have hn : PeerCursors.get_peer (postClose st (.peerExec id) cs cname).peerCursors
      cname = none := by
    simpa [postClose] using get_peer_remove_self st.peerCursors cname
  refine ⟨?_, hn, ?_⟩
  · simp only [handle_query, hpeer, hhit]
    unfold execute_statement
    rw [hexec]
    simp [postClose, List.foldl]
  · simp only [handle_query, hn]

/-- A session state owning cursor c0 on the cached BigQuery peer. -/
def stW7 : SessionState :=
  { st0 with executors := [("bq_peer", 0)], nextExecId := 1,
             peerCursors := [("c0", peerBq)] }

/-- An environment whose executors close cursor c0 on the statement
`CLOSE` and otherwise report an affected row. -/
def envW7 : Env :=
  { env0 with execRes := fun _ s =>
      if s = "CLOSE" then .ok (.cursor (.closed ["c0"])) else .ok (.affectedRows 1) }

theorem c7_witness :
    PeerCursors.get_peer stW7.peerCursors "c0" = some peerBq ∧
    executorsGet stW7.executors peerBq.name = some 0 ∧
    envW7.execRes (.peerExec 0) "CLOSE" = .ok (.cursor (.closed ["c0"])) ∧
    (handle_query envW7 stW7 (.peerCursor "CLOSE" (.close "c0")) =
      (postClose stW7 (.peerExec 0) "CLOSE" "c0", .ok [.execution "CLOSE CURSOR" none]) ∧
     PeerCursors.get_peer (postClose stW7 (.peerExec 0) "CLOSE" "c0").peerCursors
       "c0" = none ∧
     handle_query envW7 (postClose stW7 (.peerExec 0) "CLOSE" "c0")
         (.peerCursor "FETCH" (.fetch "c0" 3)) =
       execute_statement envW7 (postClose stW7 (.peerExec 0) "CLOSE" "c0")
         .catalogExec "FETCH" none) :=
  ⟨by decide, by decide, by decide,
   c7_close_then_fetch_falls_back envW7 stW7 peerBq "CLOSE" "FETCH" "c0" 3 0
     (by decide) (by decide) (by decide)⟩

/-- C8: dispatching a PeerDDL CreatePeer statement persists the peer
definition via the Catalog and acknowledges with a plain OK on
success; when the catalog write fails, the returned error carries the
underlying cause and the whole session state, Cursor Table and
Executor Cache included, is exactly as before. -/
theorem c8_create_peer_ack_or_error (env : Env) (st : SessionState) (p : Peer)
    (s : Stmt) (ifne : Bool) :
    handle_query env st (.peerDDL s (.createPeer p ifne)) =
      match env.createPeerRes p with
      | .ok _ =>
        ({ st with catalogPeers := st.catalogPeers ++ [p] },
         .ok [.execution "OK" none])
      | .error msg =>
        (st, .err (.userError ⟨"ERROR", "internal_error", msg⟩)) := by
  simp only [handle_query]

/-- C9: describe on a DDL or a cursor statement answers no-data and
leaves the session state, its event log included, untouched: no
executor is resolved, nothing is executed. -/
theorem c9_describe_ddl_cursor_no_data (env : Env) (st : SessionState) (s : Stmt)
    (ddl : PeerDDLStmt) (ce : CursorEvent) :
    do_describe env st (.peerDDL s ddl) = (st, .ok .noData) ∧
    do_describe env st (.peerCursor s ce) = (st, .ok .noData) :=
  ⟨rfl, rfl⟩

/-- C10: a statement whose output is a created cursor, reached
through a path that does not populate the peer holder (the catalog
association, or the cursor-table fallback), makes the session handler
panic on the unwrap of the holder. -/
theorem c10_created_cursor_without_holder_aborts (env : Env) (st : SessionState)
    (s fs : Stmt) (cname cname2 c : String) (k : Nat)
    (h1 : env.execRes .catalogExec s = .ok (.cursor (.created cname)))
    (h2 : PeerCursors.get_peer st.peerCursors c = none)
    (h3 : env.execRes .catalogExec fs = .ok (.cursor (.created cname2))) :
    (handle_query env st (.peerQuery s .catalogAssoc)).2 =
      .abortRun "called Option::unwrap on a None value" ∧
    (handle_query env st (.peerCursor fs (.fetch c k))).2 =
      .abortRun "called Option::unwrap on a None value" := by
  constructor
  · simp only [handle_query]
    unfold execute_statement
    rw [h1]
  · simp only [handle_query, h2]
    unfold execute_statement
    rw [h3]

/-- An environment whose executors always answer with a created
cursor. -/
def envW10 : Env :=
  { env0 with execRes := fun _ _ => .ok (.cursor (.created "c0")) }

theorem c10_witness :
    envW10.execRes .catalogExec "DECL" = .ok (.cursor (.created "c0")) ∧
    PeerCursors.get_peer st0.peerCursors "nope" = none ∧
    envW10.execRes .catalogExec "FETCH" = .ok (.cursor (.created "c0")) ∧
    ((handle_query envW10 st0 (.peerQuery "DECL" .catalogAssoc)).2 =
       .abortRun "called Option::unwrap on a None value" ∧
     (handle_query envW10 st0 (.peerCursor "FETCH" (.fetch "nope" 1))).2 =
       .abortRun "called Option::unwrap on a None value") :=
  ⟨by decide, by decide, by decide,
   c10_created_cursor_without_holder_aborts envW10 st0 "DECL" "FETCH" "c0" "c0"
     "nope" 1 (by decide) (by decide) (by decide)⟩

end Nexus
